import Mathlib

/-!
Verification development for the gosei compose dashboard.

Shallow embedding of the event broker (internal/sse/broker.go), the compose
operation runner (internal/api/handler, internal/docker compose clients),
the Docker event watcher and project status reconciler (cmd/gosei/main.go,
internal/api/handler/projects.go), and the container-info construction
(internal/docker/client.go). External effects (channels, subprocesses, the
Docker daemon) are modelled by explicit state passing and by parameters
standing for the observed outcome of each external call.
-/

namespace Gosei

/-! ## Compose data model (internal/docker: compose.go) -/

/-- ComposeOutput: one line of output from a compose command, with its
stream discriminator ("stdout" or "stderr"). -/
structure ComposeOutput where
  line : String
  stream : String
deriving DecidableEq, Repr

/-- ComposeResult: the result of a compose operation. -/
structure ComposeResult where
  success : Bool
  message : String
deriving DecidableEq, Repr

/-- The observed outcome of one `runCompose` (or mock sub-action) call:
the lines it pushed onto the output channel, the ComposeResult it
returned, and the Go error (None models a nil error). -/
structure SubRun where
  output : List ComposeOutput
  result : ComposeResult
  err : Option String
deriving DecidableEq, Repr

/-- The argument list of the pull sub-action in ComposeClient.Update. -/
def pullArgs : List String := ["pull"]

/-- The argument list of the recreate sub-action in ComposeClient.Update. -/
def upRecreateArgs : List String := ["up", "-d", "--remove-orphans", "--force-recreate"]

/-- The observable outcome of one ComposeClient.Update call: accumulated
output-channel lines, returned result and error, and the argument lists of
the `runCompose` invocations it made, in order. -/
structure UpdateRun where
  output : List ComposeOutput
  result : ComposeResult
  err : Option String
  invoked : List (List String)
deriving DecidableEq, Repr

/-- ComposeClient.Update (compose.go): runs `runCompose projectDir ["pull"]`;
returns its result on a non-nil error or on a non-success result; otherwise
runs `runCompose` with the up force-recreate arguments and returns that.
The external `runCompose` is a parameter giving the outcome per argument
list; output lines accumulate on the shared output channel. -/
def ComposeClient.Update (runCompose : List String → SubRun) : UpdateRun :=
  let pull := runCompose pullArgs
  if pull.err.isSome then
    { output := pull.output, result := pull.result, err := pull.err, invoked := [pullArgs] }
  else if pull.result.success = false then
    { output := pull.output, result := pull.result, err := none, invoked := [pullArgs] }
  else
    let up := runCompose upRecreateArgs
    { output := pull.output ++ up.output, result := up.result, err := up.err,
      invoked := [pullArgs, upRecreateArgs] }

/-- Renders tenths of a second the way the mock's Sprintf %.1f renders
its (one-decimal) durations. -/
def fmtTenths (t : Nat) : String := toString (t / 10) ++ "." ++ toString (t % 10)

/-- The two recreate lines the mock emits for the service at index i. -/
def mockRecreateSvcLines (projectName svc : String) (i : Nat) : List ComposeOutput :=
  [{ line := " ✔ Container " ++ projectName ++ "-" ++ svc ++ "-1  Recreating", stream := "stdout" },
   { line := " ✔ Container " ++ projectName ++ "-" ++ svc ++ "-1  Recreated   "
               ++ fmtTenths (4 + 2 * i) ++ "s", stream := "stdout" }]

/-- All recreate-phase lines of MockComposeClient.Update: the blank line,
the "[+] Recreating containers..." banner, then two lines per service. -/
def mockRecreateLines (projectName : String) (services : List String) : List ComposeOutput :=
  [{ line := "", stream := "stdout" }, { line := "[+] Recreating containers...", stream := "stdout" }]
    ++ (services.enum.map (fun p => mockRecreateSvcLines projectName p.2 p.1)).flatten

/-- MockComposeClient.Update (mock_compose.go): calls its own Pull (outcome
given as the `pull` parameter); on a non-nil error or non-success result it
returns that result and error unchanged, emitting nothing further;
otherwise it emits the recreate-phase lines and returns
`{Success: true, Message: "Updated successfully"}`. Context cancellation
inside the recreate loop is not modelled. -/
def MockComposeClient.Update (pull : SubRun) (projectName : String) (services : List String) : SubRun :=
  if pull.err.isSome || pull.result.success = false then pull
  else
    { output := pull.output ++ mockRecreateLines projectName services,
      result := { success := true, message := "Updated successfully" },
      err := none }

/-! ## C1 theorem and witness -/

/-- C1: in ComposeClient.Update the pull sub-action is invoked first, and if
its result reports failure the recreate sub-action is never invoked, no
recreate-phase output is produced (the accumulated output is exactly the
pull's output), and the returned result is exactly the pull's failure
result, message included; the mock composite behaves the same way. -/
theorem composeUpdate_short_circuits_on_pull_failure
    (runCompose : List String → SubRun) (pull : SubRun)
    (projectName : String) (services : List String)
    (hfail : (runCompose pullArgs).result.success = false)
    (hmockfail : pull.result.success = false) :
    (ComposeClient.Update runCompose).invoked.head? = some pullArgs
      ∧ (ComposeClient.Update runCompose).invoked = [pullArgs]
      ∧ (ComposeClient.Update runCompose).output = (runCompose pullArgs).output
      ∧ (ComposeClient.Update runCompose).result = (runCompose pullArgs).result
      ∧ (ComposeClient.Update runCompose).result.message
          = (runCompose pullArgs).result.message
      ∧ MockComposeClient.Update pull projectName services = pull := by
  unfold ComposeClient.Update MockComposeClient.Update
  rcases h : (runCompose pullArgs).err with _ | e
  · simp [h, hfail, hmockfail]
  · simp [h, hfail, hmockfail]

/-- A runCompose oracle whose pull fails, for the C1 witness. -/
def rcPullFails : List String → SubRun := fun args =>
  if args = pullArgs then
    { output := [{ line := "pull failed badly", stream := "stderr" }],
      result := { success := false, message := "Command failed: exit status 1" },
      err := none }
  else
    { output := [], result := { success := true, message := "Operation completed successfully" },
      err := none }

/-- A failing mock pull outcome, for the C1 witness. -/
def mockPullFailed : SubRun :=
  { output := [{ line := "[+] Pulling app", stream := "stdout" }],
    result := { success := false, message := "Operation cancelled" },
    err := some "context canceled" }

/-- Witness for C1 at a concrete failing pull. -/
theorem composeUpdate_short_circuits_on_pull_failure_witness :
    (ComposeClient.Update rcPullFails).invoked.head? = some pullArgs
      ∧ (ComposeClient.Update rcPullFails).invoked = [pullArgs]
      ∧ (ComposeClient.Update rcPullFails).output = (rcPullFails pullArgs).output
      ∧ (ComposeClient.Update rcPullFails).result = (rcPullFails pullArgs).result
      ∧ (ComposeClient.Update rcPullFails).result.message
          = (rcPullFails pullArgs).result.message
      ∧ MockComposeClient.Update mockPullFailed "web" ["app", "db"] = mockPullFailed :=
  composeUpdate_short_circuits_on_pull_failure rcPullFails mockPullFailed "web" ["app", "db"]
    (by decide) (by decide)

/-! ## SSE broker model (internal/sse/broker.go) -/

/-- Event: a server-sent event. The `data` payload is modelled as the
string the broker ends up writing (BroadcastJSON marshals to a string). -/
structure Event where
  type : String
  data : String
deriving DecidableEq, Repr

/-- A connected SSE client as held in the broker's membership table:
its ID and its Events mailbox, a buffered channel of the given capacity
whose queued contents are the `events` list. -/
structure SSEClient where
  id : String
  capacity : Nat
  events : List Event
deriving DecidableEq, Repr

/-- The broker's membership table (the `clients` map, keyed by client ID). -/
structure BrokerState where
  clients : List SSEClient
deriving DecidableEq, Repr

/-- A message consumed by the broker's run loop: one of the register,
unregister, broadcast and ctx.Done cases of its select. -/
inductive BrokerMsg where
  | register (c : SSEClient)
  | unregister (id : String)
  | broadcast (e : Event)
  | shutdown
deriving DecidableEq, Repr

/-- The non-blocking send of the fan-out pass: `select` with a `default`
branch succeeds exactly when the client's buffered channel has spare
capacity; otherwise the event is skipped for that client. -/
def trySend (e : Event) (c : SSEClient) : SSEClient :=
  if c.events.length < c.capacity then { c with events := c.events ++ [e] } else c

/-- The map-membership test `_, ok := clients[id]`. -/
def hasClient (cs : List SSEClient) (i : String) : Bool :=
  cs.any (fun x => x.id = i)

/-- The map removal `delete(clients, id)`. -/
def removeClient (cs : List SSEClient) (i : String) : List SSEClient :=
  cs.filter (fun x => x.id ≠ i)

/-- How many times a given ID occurs in a closure log. -/
def countClose (i : String) : List String → Nat
  | [] => 0
  | x :: rest => (if x = i then 1 else 0) + countClose i rest

/-- One non-shutdown step of Broker.run, returning the new membership table
and the IDs whose mailbox channel was closed by this step.
register: map assignment `clients[c.ID] = c`;
unregister: if the ID is present, delete it and close its mailbox;
broadcast: non-blocking fan-out to every registered client. -/
def Broker.step (s : BrokerState) : BrokerMsg → BrokerState × List String
  | BrokerMsg.register c =>
      ({ clients := removeClient s.clients c.id ++ [c] }, [])
  | BrokerMsg.unregister i =>
      if hasClient s.clients i then
        ({ clients := removeClient s.clients i }, [i])
      else (s, [])
  | BrokerMsg.broadcast e =>
      ({ clients := s.clients.map (trySend e) }, [])
  | BrokerMsg.shutdown => (s, [])

/-- Broker.run: processes its message stream in order; on the ctx.Done
(shutdown) case it closes every registered client's mailbox, resets the
membership table to empty and returns, so any messages after the shutdown
are never processed. Returns the final table and the ordered closure log. -/
def Broker.run (s : BrokerState) : List BrokerMsg → BrokerState × List String
  | [] => (s, [])
  | BrokerMsg.shutdown :: _ =>
      ({ clients := [] }, s.clients.map (fun c => c.id))
  | BrokerMsg.register c :: rest =>
      let st := Broker.step s (BrokerMsg.register c)
      let r := Broker.run st.1 rest
      (r.1, st.2 ++ r.2)
  | BrokerMsg.unregister i :: rest =>
      let st := Broker.step s (BrokerMsg.unregister i)
      let r := Broker.run st.1 rest
      (r.1, st.2 ++ r.2)
  | BrokerMsg.broadcast e :: rest =>
      let st := Broker.step s (BrokerMsg.broadcast e)
      let r := Broker.run st.1 rest
      (r.1, st.2 ++ r.2)

/-- Broker.Broadcast: non-blocking enqueue of the event onto the broker's
own intake queue (the buffered `broadcast` channel, capacity 256); when the
intake is full the whole event is dropped (the Bool reports the drop, which
the code logs); the call itself always returns. -/
def Broker.Broadcast (intake : List Event) (e : Event) : List Event × Bool :=
  if intake.length < 256 then (intake ++ [e], false) else (intake, true)

/-! ## C4 theorem and witness -/

/-- C4: fan-out is a non-blocking per-client enqueue: a registered client
whose mailbox is at capacity keeps its mailbox unchanged (the event is
dropped for it alone), every registered client with spare capacity gets the
event appended, the step surfaces no error (closes nothing, keeps the
membership table's IDs); and Broker.Broadcast always returns, enqueueing
onto the intake when it has room and dropping the whole event exactly when
the intake is full. -/
theorem broker_broadcast_drops_only_full_mailboxes
    (s : BrokerState) (e : Event) (c : SSEClient) (intake : List Event)
    (hc : c ∈ s.clients) (hfull : c.capacity ≤ c.events.length) :
    (trySend e c = c
      ∧ trySend e c ∈ (Broker.step s (BrokerMsg.broadcast e)).1.clients)
      ∧ (∀ d ∈ s.clients, d.events.length < d.capacity →
          trySend e d = { d with events := d.events ++ [e] }
            ∧ trySend e d ∈ (Broker.step s (BrokerMsg.broadcast e)).1.clients)
      ∧ (Broker.step s (BrokerMsg.broadcast e)).2 = []
      ∧ (Broker.step s (BrokerMsg.broadcast e)).1.clients.map (fun x => x.id)
          = s.clients.map (fun x => x.id)
      ∧ (intake.length < 256 → Broker.Broadcast intake e = (intake ++ [e], false))
      ∧ (256 ≤ intake.length → Broker.Broadcast intake e = (intake, true)) := by
  refine ⟨⟨?_, ?_⟩, ?_, ?_, ?_, ?_, ?_⟩
  · unfold trySend
    simp [Nat.not_lt.mpr hfull]
  · exact List.mem_map_of_mem (trySend e) hc
  · intro d hd hspare
    exact ⟨by unfold trySend; simp [hspare], List.mem_map_of_mem (trySend e) hd⟩
  · rfl
  · simp [Broker.step, trySend]
    intro x _
    split <;> rfl
  · intro h
    simp [Broker.Broadcast, h]
  · intro h
    simp [Broker.Broadcast, Nat.not_lt.mpr h]

/-- Concrete clients for the broker witnesses. -/
def clientFull : SSEClient :=
  { id := "1700000000000000001", capacity := 2,
    events := [{ type := "log", data := "a" }, { type := "log", data := "b" }] }

/-- A client with spare mailbox capacity, for the broker witnesses. -/
def clientSpare : SSEClient :=
  { id := "1700000000000000002", capacity := 64, events := [] }

/-- Witness for C4 at a two-client table with one full mailbox. -/
theorem broker_broadcast_drops_only_full_mailboxes_witness :
    (trySend { type := "t", data := "d" } clientFull = clientFull
      ∧ trySend { type := "t", data := "d" } clientFull ∈
          (Broker.step { clients := [clientFull, clientSpare] }
            (BrokerMsg.broadcast { type := "t", data := "d" })).1.clients)
      ∧ (∀ d ∈ ({ clients := [clientFull, clientSpare] } : BrokerState).clients,
            d.events.length < d.capacity →
            trySend { type := "t", data := "d" } d
                = { d with events := d.events ++ [{ type := "t", data := "d" }] }
              ∧ trySend { type := "t", data := "d" } d ∈
                  (Broker.step { clients := [clientFull, clientSpare] }
                    (BrokerMsg.broadcast { type := "t", data := "d" })).1.clients)
      ∧ (Broker.step { clients := [clientFull, clientSpare] }
            (BrokerMsg.broadcast { type := "t", data := "d" })).2 = []
      ∧ (Broker.step { clients := [clientFull, clientSpare] }
            (BrokerMsg.broadcast { type := "t", data := "d" })).1.clients.map
              (fun x => x.id)
          = ({ clients := [clientFull, clientSpare] } : BrokerState).clients.map
              (fun x => x.id)
      ∧ (([] : List Event).length < 256 →
          Broker.Broadcast [] { type := "t", data := "d" }
            = ([{ type := "t", data := "d" }], false))
      ∧ (256 ≤ ([] : List Event).length →
          Broker.Broadcast [] { type := "t", data := "d" } = ([], true)) :=
  broker_broadcast_drops_only_full_mailboxes
    { clients := [clientFull, clientSpare] } { type := "t", data := "d" }
    clientFull [] (by decide) (by decide)

/-! ## C7: unregister idempotence and close-once -/

/-- Removing one ID keeps every other absent ID absent. -/
theorem hasClient_removeClient_absent (cs : List SSEClient) (i j : String)
    (h : hasClient cs i = false) : hasClient (removeClient cs j) i = false := by
  cases hh : hasClient (removeClient cs j) i
  · rfl
  · exfalso
    obtain ⟨x, hx, hxi⟩ := List.any_eq_true.mp hh
    have hx2 : x ∈ cs := List.mem_of_mem_filter hx
    have : hasClient cs i = true := List.any_eq_true.mpr ⟨x, hx2, hxi⟩
    rw [h] at this
    exact Bool.noConfusion this

/-- After deleting an ID from the table, that ID is no longer present. -/
theorem hasClient_removeClient_self (cs : List SSEClient) (j : String) :
    hasClient (removeClient cs j) j = false := by
  cases hh : hasClient (removeClient cs j) j
  · rfl
  · exfalso
    obtain ⟨x, hx, hxj⟩ := List.any_eq_true.mp hh
    have hpx := List.mem_filter.mp hx
    have h1 : x.id ≠ j := by simpa using hpx.2
    have h2 : x.id = j := by simpa using hxj
    exact h1 h2

/-- Deleting a different ID keeps a present ID present. -/
theorem hasClient_removeClient_ne (cs : List SSEClient) (i j : String) (hij : i ≠ j)
    (h : hasClient cs i = true) : hasClient (removeClient cs j) i = true := by
  obtain ⟨x, hx, hxi⟩ := List.any_eq_true.mp h
  have hxi2 : x.id = i := by simpa using hxi
  refine List.any_eq_true.mpr ⟨x, List.mem_filter.mpr ⟨hx, ?_⟩, hxi⟩
  simp [hxi2, hij]

/-- If a client ID is absent from the table, any run over unregister-only
messages never closes that ID's mailbox and the ID stays absent. -/
theorem run_unreg_count_zero_of_absent (i : String) :
    ∀ (msgs : List BrokerMsg) (s : BrokerState),
      (∀ m ∈ msgs, ∃ j, m = BrokerMsg.unregister j) →
      hasClient s.clients i = false →
      (countClose i (Broker.run s msgs).2 = 0
        ∧ hasClient (Broker.run s msgs).1.clients i = false) := by
  intro msgs
  induction msgs with
  | nil => intro s _ habs; simpa [Broker.run, countClose] using habs
  | cons m rest ih =>
    intro s honly habs
    obtain ⟨j, rfl⟩ := honly m (List.mem_cons_self m rest)
    have honly2 : ∀ m ∈ rest, ∃ k, m = BrokerMsg.unregister k :=
      fun m hm => honly m (List.mem_cons_of_mem _ hm)
    by_cases hpres : hasClient s.clients j = true
    · have hji : j ≠ i := by
        intro hji
        rw [hji] at hpres
        rw [hpres] at habs
        exact Bool.noConfusion habs
      have habs2 := hasClient_removeClient_absent s.clients i j habs
      have h := ih { clients := removeClient s.clients j } honly2 habs2
      simp only [Broker.run, Broker.step, hpres, if_true, List.singleton_append]
      exact ⟨by simp [countClose, hji, h.1], h.2⟩
    · have hpres2 : hasClient s.clients j = false := by simpa using hpres
      have h := ih s honly2 habs
      simp only [Broker.run, Broker.step, hpres2, Bool.false_eq_true, if_false,
        List.nil_append]
      exact h

/-- Over unregister-only messages, a given ID's mailbox is closed at most
once. -/
theorem run_unreg_count_le_one (i : String) :
    ∀ (msgs : List BrokerMsg) (s : BrokerState),
      (∀ m ∈ msgs, ∃ j, m = BrokerMsg.unregister j) →
      countClose i (Broker.run s msgs).2 ≤ 1 := by
  intro msgs
  induction msgs with
  | nil => intro s _; simp [Broker.run, countClose]
  | cons m rest ih =>
    intro s honly
    obtain ⟨j, rfl⟩ := honly m (List.mem_cons_self m rest)
    have honly2 : ∀ m ∈ rest, ∃ k, m = BrokerMsg.unregister k :=
      fun m hm => honly m (List.mem_cons_of_mem _ hm)
    by_cases hpres : hasClient s.clients j = true
    · by_cases hji : j = i
      · subst hji
        have habs := hasClient_removeClient_self s.clients j
        have hz := run_unreg_count_zero_of_absent j rest
          { clients := removeClient s.clients j } honly2 habs
        simp only [Broker.run, Broker.step, hpres, if_true, List.singleton_append]
        simp [countClose, hz.1]
      · have h := ih { clients := removeClient s.clients j } honly2
        simp only [Broker.run, Broker.step, hpres, if_true, List.singleton_append]
        simpa [countClose, hji] using h
    · have hpres2 : hasClient s.clients j = false := by simpa using hpres
      have h := ih s honly2
      simp only [Broker.run, Broker.step, hpres2, Bool.false_eq_true, if_false,
        List.nil_append]
      exact h

/-- Over unregister-only messages, an ID registered at the start whose
unregister message occurs in the stream is closed exactly once. -/
theorem run_unreg_count_eq_one (i : String) :
    ∀ (msgs : List BrokerMsg) (s : BrokerState),
      (∀ m ∈ msgs, ∃ j, m = BrokerMsg.unregister j) →
      hasClient s.clients i = true →
      BrokerMsg.unregister i ∈ msgs →
      countClose i (Broker.run s msgs).2 = 1 := by
  intro msgs
  induction msgs with
  | nil => intro s _ _ hmem; cases hmem
  | cons m rest ih =>
    intro s honly hpresI hmem
    obtain ⟨j, rfl⟩ := honly m (List.mem_cons_self m rest)
    have honly2 : ∀ m ∈ rest, ∃ k, m = BrokerMsg.unregister k :=
      fun m hm => honly m (List.mem_cons_of_mem _ hm)
    by_cases hji : j = i
    · subst hji
      have habs := hasClient_removeClient_self s.clients j
      have hz := run_unreg_count_zero_of_absent j rest
        { clients := removeClient s.clients j } honly2 habs
      simp only [Broker.run, Broker.step, hpresI, if_true, List.singleton_append]
      simp [countClose, hz.1]
    · have hmem2 : BrokerMsg.unregister i ∈ rest := by
        rcases List.mem_cons.mp hmem with h | h
        · injection h with h2
          exact absurd h2 (fun hh => hji hh.symm)
        · exact h
      by_cases hpres : hasClient s.clients j = true
      · have hpresI2 := hasClient_removeClient_ne s.clients i j
          (fun hh => hji hh.symm) hpresI
        have h := ih { clients := removeClient s.clients j } honly2 hpresI2 hmem2
        simp only [Broker.run, Broker.step, hpres, if_true, List.singleton_append]
        simpa [countClose, hji] using h
      · have hpres2 : hasClient s.clients j = false := by simpa using hpres
        have h := ih s honly2 hpresI hmem2
        simp only [Broker.run, Broker.step, hpres2, Bool.false_eq_true, if_false,
          List.nil_append]
        exact h

/-- C7: processing an unregister for an absent client leaves the table
unchanged and closes nothing; and over any sequence of unregister messages,
a client's mailbox is closed at most once — exactly once when the client
was registered and the sequence unregisters it. -/
theorem broker_unregister_idempotent
    (s : BrokerState) (i : String) (msgs : List BrokerMsg)
    (honly : ∀ m ∈ msgs, ∃ j, m = BrokerMsg.unregister j) :
    (hasClient s.clients i = false →
        Broker.step s (BrokerMsg.unregister i) = (s, []))
      ∧ countClose i (Broker.run s msgs).2 ≤ 1
      ∧ (hasClient s.clients i = true →
          BrokerMsg.unregister i ∈ msgs →
          countClose i (Broker.run s msgs).2 = 1) := by
  refine ⟨?_, run_unreg_count_le_one i msgs s honly, run_unreg_count_eq_one i msgs s honly⟩
  intro habs
  simp [Broker.step, habs]

/-- Witness for C7: a table holding one client; unregistering an absent ID
is a no-op, and a stream unregistering the present client twice (with an
absent unregister in between) closes its mailbox exactly once. -/
theorem broker_unregister_idempotent_witness :
    Broker.step { clients := [clientSpare] } (BrokerMsg.unregister "absent")
        = ({ clients := [clientSpare] }, [])
      ∧ countClose clientSpare.id
          (Broker.run { clients := [clientSpare] }
            [BrokerMsg.unregister clientSpare.id, BrokerMsg.unregister "absent",
             BrokerMsg.unregister clientSpare.id]).2 = 1 :=
  ⟨(broker_unregister_idempotent { clients := [clientSpare] } "absent" []
      (by intro m hm; cases hm)).1 (by decide),
   (broker_unregister_idempotent { clients := [clientSpare] } clientSpare.id
      [BrokerMsg.unregister clientSpare.id, BrokerMsg.unregister "absent",
       BrokerMsg.unregister clientSpare.id]
      (by intro m hm; fin_cases hm <;> exact ⟨_, rfl⟩)).2.2 (by decide)
      (List.mem_cons_self _ _)⟩

/-! ## C9: shutdown closes everything and stops processing -/

/-- Broker.run distributes over append when the first part contains no
shutdown message. -/
theorem broker_run_append (a : List BrokerMsg) :
    ∀ (s : BrokerState) (b : List BrokerMsg), BrokerMsg.shutdown ∉ a →
      Broker.run s (a ++ b)
        = ((Broker.run (Broker.run s a).1 b).1,
           (Broker.run s a).2 ++ (Broker.run (Broker.run s a).1 b).2) := by
  induction a with
  | nil => intro s b _; simp [Broker.run]
  | cons m rest ih =>
    intro s b hna
    have hm : m ≠ BrokerMsg.shutdown := fun h => hna (h ▸ List.mem_cons_self m rest)
    have hrest : BrokerMsg.shutdown ∉ rest := fun h => hna (List.mem_cons_of_mem _ h)
    cases m with
    | register c => simp [Broker.run, ih _ b hrest]
    | unregister i => simp [Broker.run, ih _ b hrest]
    | broadcast e => simp [Broker.run, ih _ b hrest]
    | shutdown => exact absurd rfl hm

/-- C9: once the run loop processes the shutdown signal it closes every
registered client's mailbox (their IDs all enter the closure log), empties
the membership table, and processes nothing that follows: the final state
and log are the same for every suffix after the shutdown, so no later
register is accepted and no later broadcast delivers any event. -/
theorem broker_shutdown_closes_and_stops
    (s : BrokerState) (pre post : List BrokerMsg)
    (hpre : BrokerMsg.shutdown ∉ pre) :
    Broker.run s (pre ++ BrokerMsg.shutdown :: post)
        = ({ clients := [] },
           (Broker.run s pre).2
             ++ (Broker.run s pre).1.clients.map (fun c => c.id))
      ∧ (∀ c ∈ (Broker.run s pre).1.clients,
          c.id ∈ (Broker.run s (pre ++ BrokerMsg.shutdown :: post)).2)
      ∧ (∀ post2, Broker.run s (pre ++ BrokerMsg.shutdown :: post)
          = Broker.run s (pre ++ BrokerMsg.shutdown :: post2)) := by
  have key : ∀ q, Broker.run s (pre ++ BrokerMsg.shutdown :: q)
      = ({ clients := [] },
         (Broker.run s pre).2
           ++ (Broker.run s pre).1.clients.map (fun c => c.id)) := by
    intro q
    rw [broker_run_append pre s (BrokerMsg.shutdown :: q) hpre]
    simp [Broker.run]
  refine ⟨key post, ?_, fun post2 => (key post).trans (key post2).symm⟩
  intro c hc
  rw [key post]
  exact List.mem_append_right _ (List.mem_map_of_mem _ hc)

/-- Witness for C9: one registered client, shutdown, then a register and a
broadcast that must be ignored. -/
theorem broker_shutdown_closes_and_stops_witness :
    Broker.run { clients := [clientSpare] }
        ([BrokerMsg.broadcast { type := "t", data := "d" }]
          ++ BrokerMsg.shutdown ::
            [BrokerMsg.register clientFull,
             BrokerMsg.broadcast { type := "t", data := "late" }])
        = ({ clients := [] },
           (Broker.run { clients := [clientSpare] }
              [BrokerMsg.broadcast { type := "t", data := "d" }]).2
             ++ (Broker.run { clients := [clientSpare] }
                  [BrokerMsg.broadcast { type := "t", data := "d" }]).1.clients.map
                    (fun c => c.id))
      ∧ (∀ c ∈ (Broker.run { clients := [clientSpare] }
            [BrokerMsg.broadcast { type := "t", data := "d" }]).1.clients,
          c.id ∈ (Broker.run { clients := [clientSpare] }
            ([BrokerMsg.broadcast { type := "t", data := "d" }]
              ++ BrokerMsg.shutdown ::
                [BrokerMsg.register clientFull,
                 BrokerMsg.broadcast { type := "t", data := "late" }])).2)
      ∧ (∀ post2, Broker.run { clients := [clientSpare] }
            ([BrokerMsg.broadcast { type := "t", data := "d" }]
              ++ BrokerMsg.shutdown ::
                [BrokerMsg.register clientFull,
                 BrokerMsg.broadcast { type := "t", data := "late" }])
          = Broker.run { clients := [clientSpare] }
              ([BrokerMsg.broadcast { type := "t", data := "d" }]
                ++ BrokerMsg.shutdown :: post2)) :=
  broker_shutdown_closes_and_stops { clients := [clientSpare] }
    [BrokerMsg.broadcast { type := "t", data := "d" }]
    [BrokerMsg.register clientFull, BrokerMsg.broadcast { type := "t", data := "late" }]
    (by decide)

/-! ## Watcher action normalization (cmd/gosei/main.go, mapActionToState) -/

/-- mapActionToState: maps Docker event actions to container states via
the switch in main.go; any other action falls through to the default case
and is returned unchanged. -/
def mapActionToState (action : String) : String :=
  if action = "start" then "running"
  else if action = "stop" ∨ action = "die" ∨ action = "kill" then "exited"
  else if action = "pause" then "paused"
  else if action = "unpause" then "running"
  else if action = "restart" then "restarting"
  else action

/-- C5: the normalization table maps start to running; stop, die and kill
to exited; pause to paused; unpause to running; restart to restarting; and
every action outside the table passes through unchanged. -/
theorem mapActionToState_table (a : String)
    (h : a ∉ ["start", "stop", "die", "kill", "pause", "unpause", "restart"]) :
    mapActionToState "start" = "running"
      ∧ mapActionToState "stop" = "exited"
      ∧ mapActionToState "die" = "exited"
      ∧ mapActionToState "kill" = "exited"
      ∧ mapActionToState "pause" = "paused"
      ∧ mapActionToState "unpause" = "running"
      ∧ mapActionToState "restart" = "restarting"
      ∧ mapActionToState a = a := by
  simp only [List.mem_cons, List.not_mem_nil, or_false, not_or] at h
  obtain ⟨h1, h2, h3, h4, h5, h6, h7⟩ := h
  refine ⟨by decide, by decide, by decide, by decide, by decide, by decide, by decide, ?_⟩
  simp [mapActionToState, h1, h2, h3, h4, h5, h6, h7]

/-- Witness for C5 at the unmapped action "destroy". -/
theorem mapActionToState_table_witness :
    mapActionToState "start" = "running"
      ∧ mapActionToState "stop" = "exited"
      ∧ mapActionToState "die" = "exited"
      ∧ mapActionToState "kill" = "exited"
      ∧ mapActionToState "pause" = "paused"
      ∧ mapActionToState "unpause" = "running"
      ∧ mapActionToState "restart" = "restarting"
      ∧ mapActionToState "destroy" = "destroy" :=
  mapActionToState_table "destroy" (by decide)

/-! ## Container data model (internal/docker/client.go) -/

/-- PortMapping: a port mapping in a ContainerInfo. -/
structure PortMapping where
  hostIP : String
  hostPort : String
  containerPort : String
  protocol : String
deriving DecidableEq, Repr

/-- ContainerInfo: container information for the UI. Created is the unix
time in seconds. -/
structure ContainerInfo where
  id : String
  name : String
  image : String
  imageID : String
  status : String
  state : String
  health : String
  created : Nat
  ports : List PortMapping
  labels : List (String × String)
  projectName : String
  serviceName : String
  composeFile : String
  workingDir : String
deriving DecidableEq, Repr

/-- A port entry of the Docker SDK's types.Container. -/
structure SDKPort where
  ip : String
  publicPort : Nat
  privatePort : Nat
  type : String
deriving DecidableEq, Repr

/-- The fields of the Docker SDK's types.Container that containerToInfo
reads. Labels model the Go map as an association list. -/
structure SDKContainer where
  id : String
  names : List String
  image : String
  imageID : String
  status : String
  state : String
  created : Nat
  ports : List SDKPort
  labels : List (String × String)
deriving DecidableEq, Repr

/-- Go map indexing on a string map: the value for the key, or the zero
value "" when the key is absent. -/
def lookupLabel (labels : List (String × String)) (key : String) : String :=
  match labels.find? (fun kv => kv.1 = key) with
  | some kv => kv.2
  | none => ""

/-- Whether pat occurs as a contiguous substring, on char lists. -/
def hasSubstr (pat : List Char) : List Char → Bool
  | [] => pat.isEmpty
  | c :: rest => pat.isPrefixOf (c :: rest) || hasSubstr pat rest

/-- strings.Contains on the model's strings. -/
def strContains (s pat : String) : Bool := hasSubstr pat.data s.data

/-- The Go slice expression `s[:n]` on a string: defined only when n is
within bounds, and out of range (a panic) otherwise. -/
def goSlice (s : String) (n : Nat) : Option String :=
  if n ≤ s.data.length then some (String.mk (s.data.take n)) else none

/-- The leading-slash strip applied to the first entry of ctr.Names
(`if len(name) > 0 && name[0] == '/' ...`). -/
def stripSlash (n : String) : String :=
  match n.data with
  | '/' :: rest => String.mk rest
  | _ => n

/-- The health string containerToInfo derives from the status text. -/
def healthFromStatus (status : String) : String :=
  if strContains status "health" then
    if strContains status "unhealthy" then "unhealthy"
    else if strContains status "healthy" then "healthy"
    else if strContains status "starting" then "starting"
    else ""
  else ""

/-- Client.containerToInfo (client.go): converts a listed Docker container
to a ContainerInfo. The ID field is the slice ctr.ID[:12], so the function
is partial: None models the out-of-range panic on an ID shorter than 12. -/
def Client.containerToInfo (ctr : SDKContainer) : Option ContainerInfo :=
  let name := match ctr.names with
    | [] => ""
    | n :: _ => stripSlash n
  let health := healthFromStatus ctr.status
  let ports := ctr.ports.map (fun p =>
    { hostIP := p.ip, hostPort := toString p.publicPort,
      containerPort := toString p.privatePort, protocol := p.type })
  (goSlice ctr.id 12).map (fun shortId =>
    { id := shortId, name := name, image := ctr.image, imageID := ctr.imageID,
      status := ctr.status, state := ctr.state, health := health,
      created := ctr.created, ports := ports, labels := ctr.labels,
      projectName := lookupLabel ctr.labels "com.docker.compose.project",
      serviceName := lookupLabel ctr.labels "com.docker.compose.service",
      composeFile := lookupLabel ctr.labels "com.docker.compose.project.config_files",
      workingDir := lookupLabel ctr.labels "com.docker.compose.project.working_dir" })

/-! ## Docker container events and the watcher's status broadcast -/

/-- ContainerEvent: a Docker container event as produced by
Client.WatchEvents. Timestamp is unix nanoseconds. -/
structure ContainerEvent where
  id : String
  action : String
  name : String
  image : String
  project : String
  service : String
  timestamp : Nat
deriving DecidableEq, Repr

/-- ContainerStatusEvent: the container status change broadcast over SSE.
watchDockerEvents leaves Health at its zero value. -/
structure ContainerStatusEvent where
  id : String
  name : String
  status : String
  state : String
  health : String
  project : String
  service : String
deriving DecidableEq, Repr

/-- The ContainerStatusEvent watchDockerEvents builds from a watch-feed
event: ID is the slice event.ID[:12] (None models the out-of-range panic
on a shorter ID), Status the raw action, State the normalized action. -/
def watchEventToStatusEvent (event : ContainerEvent) : Option ContainerStatusEvent :=
  (goSlice event.id 12).map (fun shortId =>
    { id := shortId, name := event.name, status := event.action,
      state := mapActionToState event.action, health := "",
      project := event.project, service := event.service })

/-! ## C10 theorem and witness -/

/-- C10: both the watcher's status-event construction and
Client.containerToInfo set the ID field to exactly the first 12 characters
of the raw ID, and both are defined exactly when the raw ID has length at
least 12 — on any shorter ID the slice ID[:12] is out of range and the
embedded functions are partial (None). -/
theorem containerInfo_id_first_twelve (event : ContainerEvent) (ctr : SDKContainer) :
    (12 ≤ event.id.length →
        (watchEventToStatusEvent event).map (fun se => se.id)
          = some (String.mk (event.id.data.take 12)))
      ∧ (event.id.length < 12 → watchEventToStatusEvent event = none)
      ∧ (12 ≤ ctr.id.length →
          (Client.containerToInfo ctr).map (fun info => info.id)
            = some (String.mk (ctr.id.data.take 12)))
      ∧ (ctr.id.length < 12 → Client.containerToInfo ctr = none) := by
  refine ⟨?_, ?_, ?_, ?_⟩
  · intro h
    simp [watchEventToStatusEvent, goSlice, h]
  · intro h
    simp [watchEventToStatusEvent, goSlice, Nat.not_le.mpr h]
  · intro h
    simp [Client.containerToInfo, goSlice, h]
  · intro h
    simp [Client.containerToInfo, goSlice, Nat.not_le.mpr h]

/-- A watch-feed event with a full 64-character container ID. -/
def sampleEvent : ContainerEvent :=
  { id := "0123456789abcdef0123456789abcdef0123456789abcdef0123456789abcdef",
    action := "start", name := "web-app-1", image := "nginx:latest",
    project := "web", service := "app", timestamp := 1700000000000000000 }

/-- A listed container whose raw ID is shorter than 12 characters. -/
def shortIdContainer : SDKContainer :=
  { id := "abc", names := ["/web-app-1"], image := "nginx:latest",
    imageID := "sha256:deadbeef", status := "Up 2 hours (healthy)",
    state := "running", created := 1700000000, ports := [], labels := [] }

/-- Witness for C10: the 64-character ID is truncated to its first 12
characters, and the 3-character ID makes the construction undefined. -/
theorem containerInfo_id_first_twelve_witness :
    (watchEventToStatusEvent sampleEvent).map (fun se => se.id)
        = some (String.mk (sampleEvent.id.data.take 12))
      ∧ Client.containerToInfo shortIdContainer = none :=
  ⟨(containerInfo_id_first_twelve sampleEvent shortIdContainer).1 (by decide),
   (containerInfo_id_first_twelve sampleEvent shortIdContainer).2.2.2 (by decide)⟩

/-! ## Project model and status reconciliation -/

/-- Project: the fields of a scanned compose project that the reconciler
and the API handlers read and write. Total is the expected service count
recorded by the scanner. -/
structure Project where
  id : String
  name : String
  path : String
  status : String
  running : Nat
  total : Nat
deriving DecidableEq, Repr

/-- A scanner.UpdateProjectStatus call: the (projectID, running, status)
triple the reconciler stores back. -/
structure ScannerUpdate where
  projectID : String
  running : Nat
  status : String
deriving DecidableEq, Repr

/-- ProjectStatusEvent: the project status change broadcast over SSE. -/
structure ProjectStatusEvent where
  id : String
  name : String
  status : String
  running : Nat
  total : Nat
deriving DecidableEq, Repr

/-- ProjectHandler.updateProjectStatus (internal/api/handler/projects.go):
reconciles one project's status from a ListContainers query outcome. On a
query error it sets the project's status to "unknown" and returns without
touching the counts or calling the scanner; otherwise it counts members in
state "running", keeps Total as stored, derives the status, and records it
via scanner.UpdateProjectStatus. It broadcasts nothing itself. -/
def ProjectHandler.updateProjectStatus (p : Project)
    (query : Except String (List ContainerInfo)) : Project × Option ScannerUpdate :=
  match query with
  | Except.error _ => ({ p with status := "unknown" }, none)
  | Except.ok containers =>
    let running := containers.countP (fun c => c.state = "running")
    let status :=
      if running = 0 then "stopped"
      else if running = p.total then "running"
      else "partial"
    ({ p with running := running, status := status }, some ⟨p.id, running, status⟩)

/-- updateProjectStatus (cmd/gosei/main.go), the watcher-path reconciler:
looks the project up by name; returns silently when the project is unknown
or the ListContainers query fails; otherwise counts running members,
derives the status against the stored Total, records it via
scanner.UpdateProjectStatus and broadcasts one project:status event
carrying the stored Total. -/
def Main.updateProjectStatus (projects : List Project) (projectName : String)
    (query : Except String (List ContainerInfo)) :
    Option ScannerUpdate × List ProjectStatusEvent :=
  match projects.find? (fun p => p.name = projectName) with
  | none => (none, [])
  | some proj =>
    match query with
    | Except.error _ => (none, [])
    | Except.ok containers =>
      let running := containers.countP (fun c => c.state = "running")
      let status :=
        if running > 0 ∧ running = proj.total then "running"
        else if running > 0 then "partial"
        else "stopped"
      (some ⟨proj.id, running, status⟩,
       [{ id := proj.id, name := proj.name, status := status,
          running := running, total := proj.total }])

/-- The aggregate-status formula as the spec states it, as a function of a
running count and a total. -/
def specAggregateStatus (running total : Nat) : String :=
  if running = 0 then "stopped"
  else if running = total then "running"
  else "partial"

/-- A ContainerInfo in the given state, with neutral remaining fields. -/
def mkContainer (n : String) (st : String) : ContainerInfo :=
  { id := n, name := n, image := "img", imageID := "sha256:0", status := st,
    state := st, health := "", created := 0, ports := [], labels := [],
    projectName := "web", serviceName := n, composeFile := "", workingDir := "" }

/-- Five listed members of which exactly three are in state "running". -/
def fiveMembersThreeRunning : List ContainerInfo :=
  [mkContainer "a" "running", mkContainer "b" "running", mkContainer "c" "running",
   mkContainer "d" "exited", mkContainer "e" "exited"]

/-- A project whose stored expected total is 3, smaller than its five
listed members. -/
def projTotalThree : Project :=
  { id := "p1", name := "web", path := "/srv/web", status := "unknown",
    running := 0, total := 3 }

/-! ## C2: status reconciliation formula -/

/-- C2 counterexample: reconciliation does not use the member count as the
total. For a project whose stored Total is 3, a successful query listing 5
members with 3 running yields status "running" (running equals the stored
Total) and leaves Total at 3 — not status "partial" with total 5 as the
claim's running-vs-member-count reading requires. -/
theorem updateProjectStatus_total_is_stored_counterexample :
    fiveMembersThreeRunning.length = 5
      ∧ fiveMembersThreeRunning.countP (fun c => c.state = "running") = 3
      ∧ (ProjectHandler.updateProjectStatus projTotalThree
            (Except.ok fiveMembersThreeRunning)).1.status = "running"
      ∧ (ProjectHandler.updateProjectStatus projTotalThree
            (Except.ok fiveMembersThreeRunning)).1.total = 3
      ∧ ¬ ((ProjectHandler.updateProjectStatus projTotalThree
              (Except.ok fiveMembersThreeRunning)).1.status = "partial"
            ∧ (ProjectHandler.updateProjectStatus projTotalThree
                 (Except.ok fiveMembersThreeRunning)).1.total
               = fiveMembersThreeRunning.length) := by
  decide

/-- C2 amended: for every successful member query, reconciliation computes
running as the count of members whose state equals "running", leaves the
total at the project's stored expected Total (it is not the member count),
and sets status by the stopped/running/partial formula applied to
(running, stored Total); in particular 3 running of 5 members yields
{running:3, total:5, status:"partial"} exactly when the stored Total is 5
(witnessed below). -/
theorem updateProjectStatus_formula (p : Project) (containers : List ContainerInfo) :
    (ProjectHandler.updateProjectStatus p (Except.ok containers)).1.running
        = containers.countP (fun c => c.state = "running")
      ∧ (ProjectHandler.updateProjectStatus p (Except.ok containers)).1.total = p.total
      ∧ (ProjectHandler.updateProjectStatus p (Except.ok containers)).1.status
          = specAggregateStatus (containers.countP (fun c => c.state = "running")) p.total
      ∧ (ProjectHandler.updateProjectStatus p (Except.ok containers)).2
          = some ⟨p.id, containers.countP (fun c => c.state = "running"),
              specAggregateStatus (containers.countP (fun c => c.state = "running")) p.total⟩ := by
  refine ⟨rfl, rfl, ?_, ?_⟩
  · simp only [ProjectHandler.updateProjectStatus, specAggregateStatus]
  · simp only [ProjectHandler.updateProjectStatus, specAggregateStatus]

/-- A project whose stored expected total is 5. -/
def projTotalFive : Project :=
  { id := "p2", name := "web", path := "/srv/web", status := "unknown",
    running := 0, total := 5 }

/-- Witness for the amended C2: 3 running of 5 members with stored Total 5
yields running 3, total 5, status "partial". -/
theorem updateProjectStatus_formula_witness :
    (ProjectHandler.updateProjectStatus projTotalFive
          (Except.ok fiveMembersThreeRunning)).1.running
        = fiveMembersThreeRunning.countP (fun c => c.state = "running")
      ∧ (ProjectHandler.updateProjectStatus projTotalFive
            (Except.ok fiveMembersThreeRunning)).1.total = projTotalFive.total
      ∧ (ProjectHandler.updateProjectStatus projTotalFive
            (Except.ok fiveMembersThreeRunning)).1.status
          = specAggregateStatus
              (fiveMembersThreeRunning.countP (fun c => c.state = "running"))
              projTotalFive.total
      ∧ (ProjectHandler.updateProjectStatus projTotalFive
            (Except.ok fiveMembersThreeRunning)).2
          = some ⟨projTotalFive.id,
              fiveMembersThreeRunning.countP (fun c => c.state = "running"),
              specAggregateStatus
                (fiveMembersThreeRunning.countP (fun c => c.state = "running"))
                projTotalFive.total⟩ :=
  updateProjectStatus_formula projTotalFive fiveMembersThreeRunning

/-! ## C3: failed member query -/

/-- C3 counterexample: in the watcher-path reconciler a failed member
query publishes no status event at all and records nothing — the claim's
"status set to unknown and an event still published" fails there. -/
theorem failedQuery_publishes_nothing_counterexample :
    Main.updateProjectStatus [projTotalThree] "web" (Except.error "daemon down")
        = (none, [])
      ∧ ((Main.updateProjectStatus [projTotalThree] "web"
            (Except.error "daemon down")).2.length = 0) := by
  decide

/-- C3 amended: on a failed member query the watcher-path reconciler
returns with no scanner update and no published event (the project is left
untouched); the handler reconciler sets the project's status to "unknown",
leaves the running and total counts unchanged, records nothing with the
scanner and itself publishes no event. -/
theorem failedQuery_degrades_without_event (projects : List Project)
    (projectName msg : String) (p : Project) :
    Main.updateProjectStatus projects projectName (Except.error msg) = (none, [])
      ∧ ProjectHandler.updateProjectStatus p (Except.error msg)
          = ({ p with status := "unknown" }, none)
      ∧ (ProjectHandler.updateProjectStatus p (Except.error msg)).1.running = p.running
      ∧ (ProjectHandler.updateProjectStatus p (Except.error msg)).1.total = p.total := by
  refine ⟨?_, rfl, rfl, rfl⟩
  unfold Main.updateProjectStatus
  cases projects.find? (fun q => q.name = projectName) with
  | none => rfl
  | some proj => rfl

/-! ## Operation runner (internal/api/handler/projects.go, runComposeOperation) -/

/-- ComposeOutputEvent: one compose:output SSE event. -/
structure ComposeOutputEvent where
  projectId : String
  operation : String
  line : String
  stream : String
deriving DecidableEq, Repr

/-- ComposeCompleteEvent: the compose:complete SSE event. -/
structure ComposeCompleteEvent where
  projectId : String
  operation : String
  success : Bool
  message : String
deriving DecidableEq, Repr

/-- An SSE broadcast made by one runComposeOperation call. -/
inductive RunnerEvent where
  | output (e : ComposeOutputEvent)
  | complete (e : ComposeCompleteEvent)
  | projectStatus (e : ProjectStatusEvent)
deriving DecidableEq, Repr

/-- An HTTP response as written by writeJSON: status code plus a
string-map body. -/
structure HttpResponse where
  status : Nat
  body : List (String × String)
deriving DecidableEq, Repr

/-- The terminal compose:complete events within a broadcast list, in
order. -/
def terminalEvents : List RunnerEvent → List ComposeCompleteEvent
  | [] => []
  | RunnerEvent.output _ :: rest => terminalEvents rest
  | RunnerEvent.complete c :: rest => c :: terminalEvents rest
  | RunnerEvent.projectStatus _ :: rest => terminalEvents rest

/-- ProjectHandler.runComposeOperation: looks the project up (404 when
missing); otherwise replies 202 {status: started} at once and, on the
operation goroutine, relays every output line as a compose:output event,
folds the action outcome `(opResult, opErr)` into exactly one
compose:complete event with `success = (err == nil && result != nil &&
result.Success)` and the message taken from the error, then from a
non-success result, defaulting to "Operation completed"; finally it
re-reads the project (`projAfter`), reconciles it against `queryAfter` and
broadcasts its project:status. The HTTP response is computed before any of
the outcome parameters are consulted. -/
def ProjectHandler.runComposeOperation (projectLookup : Option Project) (id operation : String)
    (opOutput : List ComposeOutput) (opResult : Option ComposeResult) (opErr : Option String)
    (projAfter : Option Project) (queryAfter : Except String (List ContainerInfo)) :
    HttpResponse × List RunnerEvent :=
  match projectLookup with
  | none => ({ status := 404, body := [("error", "Project not found")] }, [])
  | some _p =>
    let success : Bool := opErr.isNone &&
      (match opResult with
       | some r => r.success
       | none => false)
    let message : String :=
      match opErr with
      | some e => e
      | none =>
        match opResult with
        | some r => if r.success = false then r.message else "Operation completed"
        | none => "Operation completed"
    let events :=
      opOutput.map (fun o => RunnerEvent.output
          { projectId := id, operation := operation, line := o.line, stream := o.stream })
        ++ [RunnerEvent.complete
             { projectId := id, operation := operation, success := success, message := message }]
        ++ (match projAfter with
            | none => []
            | some p2 =>
              let p3 := (ProjectHandler.updateProjectStatus p2 queryAfter).1
              [RunnerEvent.projectStatus
                { id := p3.id, name := p3.name, status := p3.status,
                  running := p3.running, total := p3.total }])
    ({ status := 202,
       body := [("status", "started"), ("operation", operation), ("projectId", id)] },
     events)

/-- Relayed output events contribute no terminal events. -/
theorem terminalEvents_append_outputs (id operation : String)
    (out : List ComposeOutput) (rest : List RunnerEvent) :
    terminalEvents (out.map (fun o => RunnerEvent.output
        { projectId := id, operation := operation, line := o.line, stream := o.stream })
      ++ rest) = terminalEvents rest := by
  induction out with
  | nil => rfl
  | cons o os ih => simpa [terminalEvents] using ih

/-- The post-completion status block contributes no terminal events. -/
theorem terminalEvents_statusTail (projAfter : Option Project)
    (queryAfter : Except String (List ContainerInfo)) :
    terminalEvents
      (match projAfter with
        | none => []
        | some p2 =>
          let p3 := (ProjectHandler.updateProjectStatus p2 queryAfter).1
          [RunnerEvent.projectStatus
            { id := p3.id, name := p3.name, status := p3.status,
              running := p3.running, total := p3.total }]) = [] := by
  cases projAfter with
  | none => rfl
  | some p2 => rfl

/-! ## C6 theorem and witness -/

/-- C6: for a request on an existing project the caller gets the 202
started acknowledgment, whose value is the same whatever the action's
outcome turns out to be (the caller never waits on it); exactly one
terminal compose:complete event is emitted per operation; a runner-internal
failure (non-nil error, including a launch failure) or a non-success
result is folded into that single terminal event's success=false and
message, and a successful result yields success=true with the default
message. -/
theorem runComposeOperation_accepted_one_terminal
    (p : Project) (id operation : String)
    (opOutput : List ComposeOutput) (opResult : Option ComposeResult) (opErr : Option String)
    (projAfter : Option Project) (queryAfter : Except String (List ContainerInfo))
    (opOutput2 : List ComposeOutput) (opResult2 : Option ComposeResult) (opErr2 : Option String)
    (projAfter2 : Option Project) (queryAfter2 : Except String (List ContainerInfo)) :
    (ProjectHandler.runComposeOperation (some p) id operation opOutput opResult opErr
        projAfter queryAfter).1.status = 202
      ∧ (ProjectHandler.runComposeOperation (some p) id operation opOutput opResult opErr
          projAfter queryAfter).1
        = (ProjectHandler.runComposeOperation (some p) id operation opOutput2 opResult2 opErr2
            projAfter2 queryAfter2).1
      ∧ (terminalEvents (ProjectHandler.runComposeOperation (some p) id operation opOutput opResult opErr
          projAfter queryAfter).2).length = 1
      ∧ (∀ e, opErr = some e →
          terminalEvents (ProjectHandler.runComposeOperation (some p) id operation opOutput opResult opErr
              projAfter queryAfter).2
            = [{ projectId := id, operation := operation, success := false, message := e }])
      ∧ (∀ r, opErr = none → opResult = some r → r.success = false →
          terminalEvents (ProjectHandler.runComposeOperation (some p) id operation opOutput opResult opErr
              projAfter queryAfter).2
            = [{ projectId := id, operation := operation, success := false,
                 message := r.message }])
      ∧ (opErr = none → opResult = none →
          terminalEvents (ProjectHandler.runComposeOperation (some p) id operation opOutput opResult opErr
              projAfter queryAfter).2
            = [{ projectId := id, operation := operation, success := false,
                 message := "Operation completed" }])
      ∧ (∀ r, opErr = none → opResult = some r → r.success = true →
          terminalEvents (ProjectHandler.runComposeOperation (some p) id operation opOutput opResult opErr
              projAfter queryAfter).2
            = [{ projectId := id, operation := operation, success := true,
                 message := "Operation completed" }]) := by
  have hterm : ∀ (oo : List ComposeOutput) (orr : Option ComposeResult) (oe : Option String)
      (pa : Option Project) (qa : Except String (List ContainerInfo)),
      terminalEvents (ProjectHandler.runComposeOperation (some p) id operation oo orr oe pa qa).2
        = [{ projectId := id, operation := operation,
             success := oe.isNone &&
               (match orr with
                | some r => r.success
                | none => false),
             message :=
               match oe with
               | some e => e
               | none =>
                 match orr with
                 | some r => if r.success = false then r.message else "Operation completed"
                 | none => "Operation completed" }] := by
    intro oo orr oe pa qa
    have hsplit : (ProjectHandler.runComposeOperation (some p) id operation oo orr oe pa qa).2
        = oo.map (fun o => RunnerEvent.output
            { projectId := id, operation := operation, line := o.line, stream := o.stream })
          ++ [RunnerEvent.complete
               { projectId := id, operation := operation,
                 success := oe.isNone &&
                   (match orr with
                    | some r => r.success
                    | none => false),
                 message :=
                   match oe with
                   | some e => e
                   | none =>
                     match orr with
                     | some r => if r.success = false then r.message else "Operation completed"
                     | none => "Operation completed" }]
          ++ (match pa with
              | none => []
              | some p2 =>
                let p3 := (ProjectHandler.updateProjectStatus p2 qa).1
                [RunnerEvent.projectStatus
                  { id := p3.id, name := p3.name, status := p3.status,
                    running := p3.running, total := p3.total }]) := rfl
    rw [hsplit, List.append_assoc, terminalEvents_append_outputs,
      List.singleton_append, terminalEvents, terminalEvents_statusTail]
  refine ⟨rfl, rfl, ?_, ?_, ?_, ?_, ?_⟩
  · rw [hterm]
    rfl
  · intro e he
    rw [hterm, he]
    rfl
  · intro r he hr hs
    rw [hterm, he, hr]
    simp [hs]
  · intro he hr
    rw [hterm, he, hr]
    rfl
  · intro r he hr hs
    rw [hterm, he, hr]
    simp [hs]

/-- Witness for C6: a found project, an operation that failed to launch
(non-nil error), compared against a successful alternative outcome. -/
theorem runComposeOperation_accepted_one_terminal_witness :
    (ProjectHandler.runComposeOperation (some projTotalFive) "p2" "update" [] none
        (some "exec: docker: not found") none (Except.error "x")).1.status = 202
      ∧ (ProjectHandler.runComposeOperation (some projTotalFive) "p2" "update" [] none
          (some "exec: docker: not found") none (Except.error "x")).1
        = (ProjectHandler.runComposeOperation (some projTotalFive) "p2" "update"
            [{ line := "ok", stream := "stdout" }]
            (some { success := true, message := "Operation completed successfully" }) none
            (some projTotalFive) (Except.ok fiveMembersThreeRunning)).1
      ∧ (terminalEvents (ProjectHandler.runComposeOperation (some projTotalFive) "p2" "update" [] none
          (some "exec: docker: not found") none (Except.error "x")).2).length = 1
      ∧ terminalEvents (ProjectHandler.runComposeOperation (some projTotalFive) "p2" "update" [] none
            (some "exec: docker: not found") none (Except.error "x")).2
          = [{ projectId := "p2", operation := "update", success := false,
               message := "exec: docker: not found" }] := by
  have h := runComposeOperation_accepted_one_terminal projTotalFive "p2" "update"
    [] none (some "exec: docker: not found") none (Except.error "x")
    [{ line := "ok", stream := "stdout" }]
    (some { success := true, message := "Operation completed successfully" }) none
    (some projTotalFive) (Except.ok fiveMembersThreeRunning)
  exact ⟨h.1, h.2.1, h.2.2.1, h.2.2.2.1 "exec: docker: not found" rfl⟩

/-! ## Watcher loop (cmd/gosei/main.go, watchDockerEvents) -/

/-- One step of the watcher's observable behaviour: a WatchEvents
subscription attempt, the processing of one received event, or the fixed
reconnect sleep (in seconds). -/
inductive WatchStep where
  | subscribe
  | event (e : ContainerEvent)
  | delay (seconds : Nat)
deriving DecidableEq, Repr

/-- One iteration of the outer for loop of watchDockerEvents: subscribe via
WatchEvents, process the session's events until the feed closes or errors,
then sleep the fixed 5 seconds at the reconnect label. -/
def watchIteration (session : List ContainerEvent) : List WatchStep :=
  WatchStep.subscribe :: session.map WatchStep.event ++ [WatchStep.delay 5]

/-- The trace of watchDockerEvents across the given failed sessions: the
outer loop never returns, so the trace of n sessions is the concatenation
of n iterations, each ending in the fixed delay, and processing continues
with a further iteration for every later session. -/
def watchDockerEventsTrace (sessions : List (List ContainerEvent)) : List WatchStep :=
  (sessions.map watchIteration).flatten

/-- How many subscription attempts a trace contains. -/
def countSubscribes : List WatchStep → Nat
  | [] => 0
  | WatchStep.subscribe :: rest => 1 + countSubscribes rest
  | WatchStep.event _ :: rest => countSubscribes rest
  | WatchStep.delay _ :: rest => countSubscribes rest

/-- The trace extends by one full iteration per session. -/
theorem watchTrace_append_session (sessions : List (List ContainerEvent))
    (s : List ContainerEvent) :
    watchDockerEventsTrace (sessions ++ [s])
      = watchDockerEventsTrace sessions ++ watchIteration s := by
  unfold watchDockerEventsTrace
  rw [List.map_append, List.flatten_append]
  simp

/-- Every delay step in the trace is the fixed 5 seconds. -/
theorem watchTrace_delays_fixed (sessions : List (List ContainerEvent)) :
    ∀ d, WatchStep.delay d ∈ watchDockerEventsTrace sessions → d = 5 := by
  induction sessions with
  | nil => intro d hd; cases hd
  | cons s rest ih =>
    intro d hd
    rw [watchDockerEventsTrace, List.map_cons, List.flatten_cons] at hd
    rcases List.mem_append.mp hd with h | h
    · rcases List.mem_cons.mp h with h2 | h2
      · cases h2
      · rcases List.mem_append.mp h2 with h3 | h3
        · obtain ⟨e, _, he⟩ := List.mem_map.mp h3
          cases he
        · rcases List.mem_cons.mp h3 with h4 | h4
          · injection h4
          · cases h4
    · exact ih d h

/-- A nonempty trace ends with the fixed reconnect delay. -/
theorem watchTrace_getLast_delay (sessions : List (List ContainerEvent))
    (h : sessions ≠ []) :
    (watchDockerEventsTrace sessions).getLast? = some (WatchStep.delay 5) := by
  induction sessions using List.reverseRecOn with
  | nil => exact absurd rfl h
  | append_singleton rest s _ =>
    rw [watchTrace_append_session, List.getLast?_append]
    have hlast : (watchIteration s).getLast? = some (WatchStep.delay 5) := by
      unfold watchIteration
      rw [List.getLast?_concat]
    rw [hlast]
    rfl

/-- Processed events contribute no subscription attempts. -/
theorem countSubscribes_events (es : List ContainerEvent) (rest : List WatchStep) :
    countSubscribes (es.map WatchStep.event ++ rest) = countSubscribes rest := by
  induction es with
  | nil => rfl
  | cons e es2 ih => simpa only [List.map_cons, List.cons_append, countSubscribes] using ih

/-- Each session contributes exactly one subscription attempt. -/
theorem countSubscribes_iteration (s : List ContainerEvent) (rest : List WatchStep) :
    countSubscribes (watchIteration s ++ rest) = 1 + countSubscribes rest := by
  unfold watchIteration
  rw [List.append_assoc, List.cons_append]
  simp only [countSubscribes]
  rw [countSubscribes_events, List.singleton_append]
  simp only [countSubscribes]

/-- The subscription count of a trace equals its session count. -/
theorem countSubscribes_trace (sessions : List (List ContainerEvent)) :
    countSubscribes (watchDockerEventsTrace sessions) = sessions.length := by
  induction sessions with
  | nil => rfl
  | cons s rest ih =>
    rw [watchDockerEventsTrace, List.map_cons, List.flatten_cons]
    rw [countSubscribes_iteration]
    rw [watchDockerEventsTrace] at ih
    rw [ih, List.length_cons]
    omega

/-! ## C8 theorem and witness -/

/-- C8: whatever failed sessions have come before, the watcher performs a
further subscription attempt (the loop never terminates — one subscription
per session, for every number of previous failures, three included), the
new attempt begins only after the previous trace has ended with the
reconnect delay, and every delay in the trace is the same fixed 5 seconds
(not exponential backoff). -/
theorem watcher_resubscribes_after_fixed_delay
    (prev : List (List ContainerEvent)) (s : List ContainerEvent)
    (hprev : prev ≠ []) :
    watchDockerEventsTrace (prev ++ [s])
        = watchDockerEventsTrace prev ++ watchIteration s
      ∧ (watchDockerEventsTrace prev).getLast? = some (WatchStep.delay 5)
      ∧ countSubscribes (watchDockerEventsTrace (prev ++ [s])) = prev.length + 1
      ∧ (∀ d, WatchStep.delay d ∈ watchDockerEventsTrace (prev ++ [s]) → d = 5) := by
  refine ⟨watchTrace_append_session prev s, watchTrace_getLast_delay prev hprev, ?_,
    watchTrace_delays_fixed (prev ++ [s])⟩
  rw [countSubscribes_trace, List.length_append, List.length_singleton]

/-- Witness for C8 after three consecutive failed sessions. -/
theorem watcher_resubscribes_after_fixed_delay_witness :
    watchDockerEventsTrace [[sampleEvent], [], []]
        = watchDockerEventsTrace [[sampleEvent], []] ++ watchIteration []
      ∧ (watchDockerEventsTrace [[sampleEvent], []]).getLast?
          = some (WatchStep.delay 5)
      ∧ countSubscribes (watchDockerEventsTrace [[sampleEvent], []] ++ watchIteration [])
          = 3 := by
  have h := watcher_resubscribes_after_fixed_delay [[sampleEvent], []] [] (by decide)
  refine ⟨h.1, h.2.1, ?_⟩
  rw [← h.1, h.2.2.1]
  rfl

end Gosei
